import Mathlib

/-!
Verification of the marshalling core of a Neovim plugin framework:
tagged dynamic values (`Object`), the foreign-ABI array (`Array` =
`Collection<Object>`), its owning iterator and non-owning views, the
libuv async (wake) handle, the Lua scheduling bridge, and the
error-slot glue of the window API wrappers.
-/

namespace NvimOxi

/-- The tagged dynamic value (`nvim_types::Object`): a tagged union over
absence (`nil`), booleans, platform-width signed integers, doubles
(carried here as their 64-bit pattern, since conversion never inspects
them), owned strings, arrays, dictionaries and the opaque
buffer/window/tabpage handles, plus Lua references. -/
inductive Object where
  | nil : Object
  | boolean (b : Bool) : Object
  | integer (i : Int) : Object
  | floating (bits : Nat) : Object
  | str (s : String) : Object
  | array (xs : List Object) : Object
  | dictionary (ps : List (String × Object)) : Object
  | bufHandle (h : Int) : Object
  | winHandle (h : Int) : Object
  | tabHandle (h : Int) : Object
  | luaRef (r : Int) : Object

/-- `Object::is_some`: every tag except `nil` holds a value. -/
def Object.is_some : Object → Bool
  | .nil => false
  | _ => true

/-- The foreign-ABI collection (`Collection<Object>` = `Array`): an items
pointer plus size and capacity.  We model the contiguous allocation the
items pointer addresses as the list of `Object`s it holds; `size` is its
length, and `capacity ≥ size` is never exposed across the boundary. -/
structure NArray where
  items : List Object
  capacity : Nat

/-- `Array::len` (`Collection::len`): the `size` field. -/
def NArray.len (a : NArray) : Nat := a.items.length

/-- The owning iterator (`ArrayIterator`): two raw cursors `start` and
`stop` into the backing allocation `mem` taken over from the array
(whose own destructor was suppressed with `ManuallyDrop`).  Cursors are
modelled as indices into `mem`. -/
structure ArrayIterator where
  start : Nat
  stop : Nat
  mem : List Object

/-- `Array::into_iter`: wraps the array in `ManuallyDrop` (so the
collection destructor never runs), sets `start` to the items pointer and
`stop` to `start + len`. -/
def NArray.into_iter (a : NArray) : ArrayIterator :=
  { start := 0, stop := a.items.length, mem := a.items }

/-- `ArrayIterator::next`: when `start ≠ stop`, reads the slot at
`start` (transferring its ownership to the caller) and advances
`start`; otherwise yields nothing. -/
def ArrayIterator.next (it : ArrayIterator) : Option Object × ArrayIterator :=
  if it.start ≠ it.stop then
    (some (it.mem.getD it.start Object.nil), { it with start := it.start + 1 })
  else
    (none, it)

/-- `ArrayIterator::drop`: walks `start` up to `stop`, calling
`drop_in_place` on each not-yet-yielded slot in order.  The returned
list records, in order, the elements destroyed.  (The C-side loop
condition is `start != stop`; the iterator invariant `start ≤ stop`
makes it `start < stop`, which we use for termination.) -/
def ArrayIterator.dropDestroys (it : ArrayIterator) : List Object :=
  if _h : it.start < it.stop then
    it.mem.getD it.start Object.nil ::
      ArrayIterator.dropDestroys { it with start := it.start + 1 }
  else
    []
termination_by it.stop - it.start

/-- Calling `next` `k` times: returns the yielded elements (in order)
and the iterator state afterwards. -/
def ArrayIterator.consume : Nat → ArrayIterator → List Object × ArrayIterator
  | 0, it => ([], it)
  | k + 1, it =>
    match it.next with
    | (none, it') => ([], it')
    | (some x, it') =>
      let r := ArrayIterator.consume k it'
      (x :: r.1, r.2)

/-- `Array::from_iter`: maps every input element through
`Object::from`, keeps only those for which `Object::is_some`, and
collects the survivors into a fresh array. -/
def NArray.from_iter (conv : α → Object) (xs : List α) : NArray :=
  let v := (xs.map conv).filter Object.is_some
  { items := v, capacity := v.length }

/-- `NonOwning<'a, T>`: a borrow-tagged shadow copy of a value's foreign
representation.  It has no `Drop` implementation, so dropping it
destroys no elements and frees no storage. -/
structure NonOwning (T : Type) where
  inner : T

/-- `NonOwning::new`. -/
def NonOwning.new (v : T) : NonOwning T := ⟨v⟩

/-- `Array::non_owning`: `NonOwning::new(Self { ..*self })`, a
field-by-field shallow copy of the foreign representation (same items
pointer, size and capacity). -/
def NArray.non_owning (a : NArray) : NonOwning NArray :=
  NonOwning.new { items := a.items, capacity := a.capacity }

/-- Elements destroyed when a `NonOwning` view is dropped: none, since
the wrapper has no destructor effect. -/
def NonOwning.dropDestroys (_ : NonOwning NArray) : List Object := []

/-- Bytes of backing storage freed when a `NonOwning` view is dropped:
none. -/
def NonOwning.dropFrees (_ : NonOwning NArray) : Nat := 0

/-- Heap allocations performed while constructing a `NonOwning` view:
none (it is a plain field copy). -/
def NArray.nonOwningAllocs (_ : NArray) : Nat := 0

/-! ## libuv bindings: the async (wake) handle -/

/-- The `libuv_bindings::Error` variants relevant to the async handle
(the crate error type is not under `src/`; these are the variants the
spec's §7 taxonomy names for handles). -/
inductive UvError where
  | couldntTriggerAsyncHandle : UvError
  | initFailed (code : Int) : UvError
deriving Repr, DecidableEq

/-- `AsyncHandle::send`: calls `uv_async_send` on the control block;
`retv` is the status the foreign primitive returns.  A negative status
becomes `Error::CouldntTriggerAsyncHandle` (the spec's
`CouldntTriggerWakeHandle`); otherwise `Ok(())`. -/
def AsyncHandle.send (retv : Int) : Except UvError Unit :=
  if retv < 0 then
    .error .couldntTriggerAsyncHandle
  else
    .ok ()

/-- The view a trampoline reconstructs with `Handle::from_raw`: the raw
pointer plus the foreign heap it dereferences through.  `dataOf` maps a
control-block address to the payload stored in its reserved data slot
(`none` = null payload pointer).  The payload of an async handle is the
type-erased callback; we model the callback by the `Result` invoking it
produces. -/
structure HandleView (P : Type) where
  ptr : Nat
  dataOf : Nat → Option P

/-- `Handle::from_raw`: reconstructs a non-owning handle view from the
raw pointer handed to the trampoline, without taking ownership. -/
def Handle.from_raw (dataOf : Nat → Option P) (ptr : Nat) : HandleView P :=
  { ptr := ptr, dataOf := dataOf }

/-- `Handle::get_data`: fetches the stored payload address (null when no
payload was ever attached). -/
def HandleView.get_data (h : HandleView P) : Option P :=
  h.dataOf h.ptr

/-- The trampoline `async_cb(ptr)`: reconstructs the handle view with
`Handle::from_raw`, fetches the payload with `get_data`, and only when
the pointer is non-null invokes the callback, discarding its error
(`if let Err(_err) = callback() {}`).  Returns how many times the
payload was invoked and which error (if any) it propagated to a
caller. -/
def async_cb (dataOf : Nat → Option (Except E Unit)) (ptr : Nat) :
    Nat × Option E :=
  let handle := Handle.from_raw dataOf ptr
  let callback := handle.get_data
  match callback with
  | none => (0, none)
  | some result =>
    match result with
    | .ok _ => (1, none)
    | .error _err => (1, none)

/-- Modelled from the spec: the foreign async-wake mechanism behind
`uv_async_send` (the libuv side is outside this repository).  Spec §4.5
and §5: `send` only arms a pending flag ("multiple `send` calls before
the host loop processes the wake collapse into a single callback
invocation"); when the host loop drains, an armed flag is cleared and
the trampoline runs the stored callback once; an unarmed flag runs
nothing. -/
structure WakeMachine where
  pending : Bool
  invocations : Nat
deriving Repr, DecidableEq

/-- The wake machine of a freshly initialized handle: not armed, no
invocations yet. -/
def WakeMachine.init : WakeMachine :=
  { pending := false, invocations := 0 }

/-- Modelled from the spec: the arming effect of `AsyncHandle::send` on
the foreign wake mechanism. -/
def WakeMachine.send (s : WakeMachine) : WakeMachine :=
  { s with pending := true }

/-- `n` successive `send` calls before the host loop runs. -/
def WakeMachine.sendN : Nat → WakeMachine → WakeMachine
  | 0, s => s
  | n + 1, s => WakeMachine.sendN n s.send

/-- Modelled from the spec: the host loop reaching a scheduling point
and draining the wake mechanism: if armed, it disarms and fires the
trampoline `async_cb` on the handle (here `dataOf`/`ptr` locate the
stored callback); otherwise nothing runs. -/
def WakeMachine.drain (dataOf : Nat → Option (Except E Unit)) (ptr : Nat)
    (s : WakeMachine) : WakeMachine :=
  if s.pending then
    { pending := false,
      invocations := s.invocations + (async_cb dataOf ptr).1 }
  else
    s

/-! ## Error/Result glue and the window API wrappers -/

/-- Modelled from the spec: the caller-allocated, zero-initialized
foreign error-output slot (`nvim_types::Error`, not under `src/`): a
kind and a message pointer; a null message (`none`) means the slot is
still empty and the call succeeded. -/
structure ErrorSlot where
  kind : Nat
  msg : Option String
deriving Repr, DecidableEq

/-- The single error channel of the wrapper APIs: either the foreign
error taken from a populated slot, or a local conversion error. -/
inductive ApiError (E : Type) where
  | nvim (kind : Nat) (msg : String) : ApiError E
  | conversion (e : E) : ApiError E
deriving Repr, DecidableEq

/-- Modelled from the spec: `Error::into_err_or_flatten` (not under
`src/`): inspect the slot after the call; a populated slot becomes a
local recoverable error carrying the foreign kind and message, an empty
slot runs the success continuation, whose own failure flows through the
same result type. -/
def into_err_or_flatten (err : ErrorSlot)
    (f : Unit → Except (ApiError E) α) : Except (ApiError E) α :=
  match err.msg with
  | some m => .error (.nvim err.kind m)
  | none => f ()

/-- `Window::get_option`: calls `nvim_win_get_option` (whose effect is
the returned object `obj` and the final slot state `err`), then
`err.into_err_or_flatten(|| Ok(Opt::from_obj(obj)?))`; the `?` lifts the
conversion failure into the same error type. -/
def Window.get_option (obj : Object) (err : ErrorSlot)
    (from_obj : Object → Except E α) : Except (ApiError E) α :=
  into_err_or_flatten err (fun _ => (from_obj obj).mapError ApiError.conversion)

/-- `Window::get_var`: calls `nvim_win_get_var`, then
`err.into_err_or_flatten(|| Ok(Var::from_obj(obj)?))`. -/
def Window.get_var (obj : Object) (err : ErrorSlot)
    (from_obj : Object → Except E α) : Except (ApiError E) α :=
  into_err_or_flatten err (fun _ => (from_obj obj).mapError ApiError.conversion)

/-- The conversion failures of `FromObject` used by the `usize`
conversion below. -/
inductive FromObjectError where
  | wrongType (expected found : String) : FromObjectError
  | outOfRange : FromObjectError
deriving Repr, DecidableEq

/-- The printed name of an `Object`'s tag, used in `WrongType`
errors. -/
def Object.tagName : Object → String
  | .nil => "Nil"
  | .boolean _ => "Boolean"
  | .integer _ => "Integer"
  | .floating _ => "Float"
  | .str _ => "String"
  | .array _ => "Array"
  | .dictionary _ => "Dictionary"
  | .bufHandle _ => "Buffer"
  | .winHandle _ => "Window"
  | .tabHandle _ => "TabPage"
  | .luaRef _ => "LuaRef"

/-- Modelled from the spec: `usize::from_obj` (not under `src/`) — the
tagged-union match requesting a nonnegative platform-width integer:
succeeds on an integer tag in range, fails with `WrongType` on any
other tag and with an out-of-range error on negative integers. -/
def usize_from_obj (o : Object) : Except FromObjectError Nat :=
  match o with
  | .integer i => if 0 ≤ i then .ok i.toNat else .error .outOfRange
  | o => .error (.wrongType "Integer" o.tagName)

/-- `into_err_or_flatten` lifted to continuations that may panic: the
outer `Option` is the panic channel (`none` = the continuation hit an
`unwrap` on `None`).  A populated slot short-circuits exactly as in
`into_err_or_flatten`, before the continuation (and its unwraps) can
run. -/
def into_err_or_flatten_p (err : ErrorSlot)
    (f : Unit → Option (Except (ApiError E) α)) :
    Option (Except (ApiError E) α) :=
  match err.msg with
  | some m => some (.error (.nvim err.kind m))
  | none => f ()

/-- `Window::get_cursor`: calls `nvim_win_get_cursor` (returning the
array `arr` and slot `err`), then on an empty slot consumes the array
with the owning iterator: `iter.next().unwrap()` then a `usize`
conversion (early-returning its error through `?`) for the line, then
the same for the column.  A failed `unwrap` is a panic, modelled by the
outer `none`. -/
def Window.get_cursor (arr : NArray) (err : ErrorSlot) :
    Option (Except (ApiError FromObjectError) (Nat × Nat)) :=
  into_err_or_flatten_p err (fun _ =>
    let it := arr.into_iter
    match it.next with
    | (none, _) => none
    | (some o1, it1) =>
      match usize_from_obj o1 with
      | .error e => some (.error (.conversion e))
      | .ok line =>
        match it1.next with
        | (none, _) => none
        | (some o2, _) =>
          match usize_from_obj o2 with
          | .error e => some (.error (.conversion e))
          | .ok col => some (.ok (line, col)))

/-- `Window::get_position`: calls `nvim_win_get_position`; the body is
identical to `get_cursor`'s. -/
def Window.get_position (arr : NArray) (err : ErrorSlot) :
    Option (Except (ApiError FromObjectError) (Nat × Nat)) :=
  into_err_or_flatten_p err (fun _ =>
    let it := arr.into_iter
    match it.next with
    | (none, _) => none
    | (some o1, it1) =>
      match usize_from_obj o1 with
      | .error e => some (.error (.conversion e))
      | .ok line =>
        match it1.next with
        | (none, _) => none
        | (some o2, _) =>
          match usize_from_obj o2 with
          | .error e => some (.error (.conversion e))
          | .ok col => some (.ok (line, col)))

/-! ## The Lua state machine behind `nvim_oxi::schedule` -/

/-- The Lua values our model of the interpreter stack needs: `nil`,
tables (identified by their global name), Lua functions, and native
closures wrapped as Lua callables (the value `Function::from_fn_once`
stores in the registry). -/
inductive LuaValue where
  | nil : LuaValue
  | table (name : String) : LuaValue
  | fn (id : Nat) : LuaValue
  | closure (id : Nat) : LuaValue
deriving Repr, DecidableEq

/-- The embedded interpreter: the two-level global namespace (global
table name → field name → value), the reference-counted registry
(integer reference → stored value) with its next fresh reference, the
value stack, and a log of the calls performed (callee, arguments),
newest first. -/
structure LuaState where
  globals : List (String × List (String × LuaValue))
  registry : List (Nat × LuaValue)
  nextRef : Nat
  stack : List LuaValue
  calls : List (LuaValue × List LuaValue)

/-- `lua_getglobal(L, name)`: pushes the global with that name (tables
are pushed as their handle), or `nil` when absent. -/
def lua_getglobal (s : LuaState) (name : String) : LuaState :=
  match s.globals.lookup name with
  | some _ => { s with stack := .table name :: s.stack }
  | none => { s with stack := .nil :: s.stack }

/-- `lua_getfield(L, -1, field)`: reads the value at the top of the
stack; when it is a table, pushes that table's field (or `nil`),
otherwise pushes `nil`. -/
def lua_getfield_top (s : LuaState) (field : String) : LuaState :=
  match s.stack with
  | .table n :: _ =>
    match s.globals.lookup n with
    | some tab =>
      match tab.lookup field with
      | some v => { s with stack := v :: s.stack }
      | none => { s with stack := .nil :: s.stack }
    | none => { s with stack := .nil :: s.stack }
  | _ => { s with stack := .nil :: s.stack }

/-- `Function::from_fn_once(fun)`: wraps the native closure (identified
by `cid`) as a Lua callable and stores it in the interpreter's registry
under a fresh integer reference (`luaL_ref`), returning that reference
(`fun.lua_ref()`) and the new state. -/
def Function.from_fn_once (s : LuaState) (cid : Nat) : Nat × LuaState :=
  (s.nextRef,
   { s with
     registry := (s.nextRef, LuaValue.closure cid) :: s.registry,
     nextRef := s.nextRef + 1 })

/-- `lua_rawgeti(L, LUA_REGISTRYINDEX, ref)`: pushes the registry entry
stored under `ref` (or `nil` when the reference is not present). -/
def lua_rawgeti_registry (s : LuaState) (r : Nat) : LuaState :=
  match s.registry.lookup r with
  | some v => { s with stack := v :: s.stack }
  | none => { s with stack := .nil :: s.stack }

/-- `lua_call(L, 1, 0)`: pops one argument and the function below it,
invokes the function with that single argument (recorded in the call
log), and pushes no results. -/
def lua_call_1_0 (s : LuaState) : LuaState :=
  match s.stack with
  | arg :: f :: rest =>
    { s with stack := rest, calls := (f, [arg]) :: s.calls }
  | _ => s

/-- `lua_pop(L, 1)`: drops the top of the stack. -/
def lua_pop_1 (s : LuaState) : LuaState :=
  { s with stack := s.stack.tail }

/-- `luaL_unref(L, LUA_REGISTRYINDEX, ref)`: removes the registry entry
stored under `ref`. -/
def luaL_unref (s : LuaState) (r : Nat) : LuaState :=
  { s with registry := s.registry.filter (fun p => p.1 ≠ r) }

/-- `nvim_oxi::schedule(fun)`: with the interpreter state in hand, puts
`vim.schedule` on the stack (`lua_getglobal` then `lua_getfield`),
registers the closure in the registry and pushes a reference to it
(`Function::from_fn_once` then `lua_rawgeti`), calls with one argument
and zero results (`lua_call`), pops `vim` and unregisters the reference
(`luaL_unref`). -/
def schedule (s : LuaState) (cid : Nat) : LuaState :=
  let s1 := lua_getglobal s "vim"
  let s2 := lua_getfield_top s1 "schedule"
  let (r, s3) := Function.from_fn_once s2 cid
  let s4 := lua_rawgeti_registry s3 r
  let s5 := lua_call_1_0 s4
  let s6 := lua_pop_1 s5
  luaL_unref s6 r

/-! ## The `Object` conversion contract (spec §4.1) -/

/-- The tags of the supported native shapes a conversion can request. -/
inductive Shape where
  | unit : Shape
  | boolean : Shape
  | integer : Shape
  | floating : Shape
  | str : Shape
  | arr : Shape
  | dict : Shape
  | buf : Shape
  | win : Shape
  | tab : Shape
deriving Repr, DecidableEq

/-- A native value of one of the supported scalar/collection shapes
(spec §3: absence, boolean, platform-width integer, double, owned text,
array of tagged values, ordered mapping, and the opaque handles as
small integers). -/
inductive NativeValue where
  | unit : NativeValue
  | boolean (b : Bool) : NativeValue
  | integer (i : Int) : NativeValue
  | floating (bits : Nat) : NativeValue
  | str (s : String) : NativeValue
  | arr (xs : List Object) : NativeValue
  | dict (ps : List (String × Object)) : NativeValue
  | buf (h : Int) : NativeValue
  | win (h : Int) : NativeValue
  | tab (h : Int) : NativeValue

/-- The shape of a native value. -/
def NativeValue.shape : NativeValue → Shape
  | .unit => .unit
  | .boolean _ => .boolean
  | .integer _ => .integer
  | .floating _ => .floating
  | .str _ => .str
  | .arr _ => .arr
  | .dict _ => .dict
  | .buf _ => .buf
  | .win _ => .win
  | .tab _ => .tab

/-- Modelled from the spec: `from_native` (`Object::from`, not under
`src/`) — spec §4.1: constructs the tagged union from a supported
native value, transferring ownership of any backing storage; absence
converts to the native "no value" representation; arrays/mappings
convert element-wise. -/
def from_native : NativeValue → Object
  | .unit => .nil
  | .boolean b => .boolean b
  | .integer i => .integer i
  | .floating bits => .floating bits
  | .str s => .str s
  | .arr xs => .array xs
  | .dict ps => .dictionary ps
  | .buf h => .bufHandle h
  | .win h => .winHandle h
  | .tab h => .tabHandle h

/-- The conversion failure of spec §4.1:
`ConversionError::WrongType{expected, found}`. -/
inductive ConversionError where
  | wrongType (expected : Shape) (found : String) : ConversionError
deriving Repr, DecidableEq

/-- Modelled from the spec: `into_native` (not under `src/`) — spec
§4.1: a tagged-union match of the value against the requested target
shape; total for supported tags, failing with
`ConversionError::WrongType{expected, found}` otherwise. -/
def into_native (target : Shape) (o : Object) :
    Except ConversionError NativeValue :=
  match target, o with
  | .unit, .nil => .ok .unit
  | .boolean, .boolean b => .ok (.boolean b)
  | .integer, .integer i => .ok (.integer i)
  | .floating, .floating bits => .ok (.floating bits)
  | .str, .str s => .ok (.str s)
  | .arr, .array xs => .ok (.arr xs)
  | .dict, .dictionary ps => .ok (.dict ps)
  | .buf, .bufHandle h => .ok (.buf h)
  | .win, .winHandle h => .ok (.win h)
  | .tab, .tabHandle h => .ok (.tab h)
  | t, o => .error (.wrongType t o.tagName)

/-! ## Helper lemmas -/

/-- Unfolding `dropDestroys` over a well-formed cursor range: it
destroys exactly the slots from `s` (inclusive) to `s + d` (exclusive),
in order. -/
theorem dropDestroys_range (mem : List Object) :
    ∀ d s, s + d ≤ mem.length →
      ArrayIterator.dropDestroys ⟨s, s + d, mem⟩ = (mem.drop s).take d := by
  intro d
  induction d with
  | zero =>
    intro s _
    rw [ArrayIterator.dropDestroys]
    simp
  | succ d ih =>
    intro s hs
    rw [ArrayIterator.dropDestroys]
    have hlt : s < s + (d + 1) := by omega
    have hsl : s < mem.length := by omega
    rw [dif_pos hlt]
    have harg : ArrayIterator.mk (s + 1) (s + (d + 1)) mem
        = ⟨s + 1, (s + 1) + d, mem⟩ := by
      simp [Nat.add_assoc, Nat.add_comm 1 d]
    rw [harg, ih (s + 1) (by omega)]
    rw [List.getD_eq_getElem mem Object.nil hsl]
    rw [List.drop_eq_getElem_cons hsl, List.take_succ_cons]

/-- Consuming `k` elements from a well-formed iterator yields the `k`
slots at the `start` cursor, in order, and advances `start` by `k`. -/
theorem consume_range (mem : List Object) :
    ∀ k s n, s + k ≤ n → n ≤ mem.length →
      ArrayIterator.consume k ⟨s, n, mem⟩ =
        ((mem.drop s).take k, ⟨s + k, n, mem⟩) := by
  intro k
  induction k with
  | zero =>
    intro s n _ _
    simp [ArrayIterator.consume]
  | succ k ih =>
    intro s n hs hn
    have hne : s ≠ n := by omega
    have hsl : s < mem.length := by omega
    rw [ArrayIterator.consume]
    simp only [ArrayIterator.next, ne_eq, hne, not_false_eq_true, if_pos]
    rw [ih (s + 1) n (by omega) hn]
    rw [List.getD_eq_getElem mem Object.nil hsl]
    rw [List.drop_eq_getElem_cons hsl, List.take_succ_cons]
    simp [Nat.add_assoc, Nat.add_comm 1 k]

/-- `get_position` has the same body as `get_cursor`. -/
theorem get_position_eq_get_cursor (arr : NArray) (err : ErrorSlot) :
    Window.get_position arr err = Window.get_cursor arr err := rfl

/-- `n ≥ 1` sends arm the wake flag and invoke nothing themselves. -/
theorem sendN_arms : ∀ n : Nat, 1 ≤ n → ∀ s : WakeMachine,
    WakeMachine.sendN n s = ⟨true, s.invocations⟩ := by
  intro n
  induction n with
  | zero => intro h; omega
  | succ n ih =>
    intro _ s
    cases Nat.eq_zero_or_pos n with
    | inl h0 => cases h0; rfl
    | inr hpos =>
      have hstep : WakeMachine.sendN (n + 1) s
          = WakeMachine.sendN n s.send := rfl
      rw [hstep, ih hpos s.send]
      rfl

/-! ## Claim theorems -/

/-- C1: for a `Buffer` (`Array`) of length `N` whose owning iterator
has yielded `k < N` elements and is then dropped, the drop destroys
exactly the `N - k` not-yet-yielded elements, in order, each once, so
the yielded and destroyed elements together are exactly the original
elements and total destructor calls equal `N`. -/
theorem array_partial_consumption (a : NArray) (k : Nat) (hk : k < a.len) :
    (ArrayIterator.consume k a.into_iter).1 ++
        (ArrayIterator.consume k a.into_iter).2.dropDestroys = a.items ∧
    (ArrayIterator.consume k a.into_iter).1.length = k ∧
    (ArrayIterator.consume k a.into_iter).2.dropDestroys = a.items.drop k ∧
    (ArrayIterator.consume k a.into_iter).2.dropDestroys.length = a.len - k ∧
    ((ArrayIterator.consume k a.into_iter).1 ++
        (ArrayIterator.consume k a.into_iter).2.dropDestroys).length = a.len := by
  have hk' : k ≤ a.items.length := Nat.le_of_lt hk
  have hcons : ArrayIterator.consume k a.into_iter =
      ((a.items.drop 0).take k, ⟨0 + k, a.items.length, a.items⟩) := by
    exact consume_range a.items k 0 a.items.length (by omega) (le_refl _)
  have hstop : ArrayIterator.mk (0 + k) a.items.length a.items
      = ⟨k, k + (a.items.length - k), a.items⟩ := by
    simp [Nat.add_sub_cancel' hk']
  have hdrop : (ArrayIterator.consume k a.into_iter).2.dropDestroys
      = a.items.drop k := by
    rw [hcons]
    simp only [hstop]
    rw [dropDestroys_range a.items (a.items.length - k) k (by omega)]
    exact List.take_of_length_le (by simp)
  have hfst : (ArrayIterator.consume k a.into_iter).1 = a.items.take k := by
    rw [hcons]
    simp
  refine ⟨?_, ?_, hdrop, ?_, ?_⟩
  · rw [hfst, hdrop, List.take_append_drop]
  · rw [hfst]
    exact List.length_take_of_le hk'
  · rw [hdrop]
    simp [NArray.len]
  · rw [hfst, hdrop, List.take_append_drop]
    rfl

/-- C1 witness: a three-element array, one element yielded, then the
iterator is dropped: the two remaining elements are destroyed in order
and the three destructor calls cover the whole buffer. -/
theorem array_partial_consumption_witness :
    (ArrayIterator.consume 1
        (NArray.into_iter ⟨[Object.integer 1, Object.integer 2,
          Object.integer 3], 3⟩)).1 ++
      (ArrayIterator.consume 1
        (NArray.into_iter ⟨[Object.integer 1, Object.integer 2,
          Object.integer 3], 3⟩)).2.dropDestroys
      = [Object.integer 1, Object.integer 2, Object.integer 3] ∧
    (ArrayIterator.consume 1
        (NArray.into_iter ⟨[Object.integer 1, Object.integer 2,
          Object.integer 3], 3⟩)).2.dropDestroys
      = [Object.integer 2, Object.integer 3] := by
  have h := array_partial_consumption
    ⟨[Object.integer 1, Object.integer 2, Object.integer 3], 3⟩ 1
    (by simp [NArray.len])
  exact ⟨h.1, h.2.2.1⟩

/-- C4: a `Buffer` (`Array`) built with `from_iter` keeps exactly the
input elements whose conversion is non-absent: its length is the count
of inputs converting to a non-`nil` `Object`. -/
theorem from_iter_filters_absent (conv : α → Object) (xs : List α) :
    (NArray.from_iter conv xs).len
      = xs.countP (fun x => (conv x).is_some) := by
  simp only [NArray.from_iter, NArray.len, ← List.countP_eq_length_filter,
    List.countP_map]
  rfl

/-- C9: `non_owning` is a bit-identical shallow copy (same items
pointer, size and capacity fields), allocates nothing, leaves the
original unchanged, and dropping the view destroys no elements and
frees no storage. -/
theorem non_owning_shallow_copy (a : NArray) :
    (a.non_owning).inner = a ∧
    (a.non_owning).inner.items = a.items ∧
    (a.non_owning).inner.len = a.len ∧
    (a.non_owning).inner.capacity = a.capacity ∧
    a.nonOwningAllocs = 0 ∧
    (a.non_owning).dropDestroys = [] ∧
    (a.non_owning).dropFrees = 0 :=
  ⟨rfl, rfl, rfl, rfl, rfl, rfl, rfl⟩

/-- C2: with a stored callback, any `n ≥ 1` sends before the host loop
drains the wake give exactly one callback invocation, and any `m ≥ 1`
further sends after the callback ran give exactly one more (total 2). -/
theorem wake_coalescing (dataOf : Nat → Option (Except E Unit)) (ptr : Nat)
    (hcb : (dataOf ptr).isSome = true) (n m : Nat) (hn : 1 ≤ n) (hm : 1 ≤ m) :
    (WakeMachine.drain dataOf ptr
        (WakeMachine.sendN n WakeMachine.init)).invocations = 1 ∧
    (WakeMachine.drain dataOf ptr
        (WakeMachine.sendN m
          (WakeMachine.drain dataOf ptr
            (WakeMachine.sendN n WakeMachine.init)))).invocations = 2 := by
  have hfire : (async_cb dataOf ptr).1 = 1 := by
    unfold async_cb Handle.from_raw HandleView.get_data
    cases h : dataOf ptr with
    | none => rw [h] at hcb; simp at hcb
    | some r => cases r <;> simp [h]
  have h1 : WakeMachine.drain dataOf ptr
      (WakeMachine.sendN n WakeMachine.init) = ⟨false, 1⟩ := by
    rw [sendN_arms n hn WakeMachine.init]
    unfold WakeMachine.drain
    simp [hfire, WakeMachine.init]
  have h2 : WakeMachine.drain dataOf ptr
      (WakeMachine.sendN m (WakeMachine.drain dataOf ptr
        (WakeMachine.sendN n WakeMachine.init))) = ⟨false, 2⟩ := by
    rw [h1, sendN_arms m hm ⟨false, 1⟩]
    unfold WakeMachine.drain
    simp [hfire]
  exact ⟨by rw [h1], by rw [h2]⟩

/-- C2 witness: five sends, a drain, one more send, a drain: one
invocation after the first drain, two in total. -/
theorem wake_coalescing_witness :
    (WakeMachine.drain (E := Unit) (fun _ => some (Except.ok ())) 0
        (WakeMachine.sendN 5 WakeMachine.init)).invocations = 1 ∧
    (WakeMachine.drain (E := Unit) (fun _ => some (Except.ok ())) 0
        (WakeMachine.sendN 1
          (WakeMachine.drain (E := Unit) (fun _ => some (Except.ok ())) 0
            (WakeMachine.sendN 5 WakeMachine.init)))).invocations = 2 :=
  wake_coalescing (E := Unit) (fun _ => some (Except.ok ())) 0 rfl 5 1
    (by omega) (by omega)

/-- C5: converting any supported native scalar/collection value into
the tagged union and back to its own shape succeeds and returns the
original value. -/
theorem into_native_from_native_roundtrip (v : NativeValue) :
    into_native v.shape (from_native v) = .ok v := by
  cases v <;> rfl

/-- C6: `send` succeeds exactly when the foreign wake primitive returns
a non-negative status, and fails with `CouldntTriggerAsyncHandle` (the
spec's `CouldntTriggerWakeHandle`) and with no other error exactly when
the status is negative. -/
theorem send_status (retv : Int) :
    (AsyncHandle.send retv = .ok () ↔ 0 ≤ retv) ∧
    (AsyncHandle.send retv = .error .couldntTriggerAsyncHandle ↔ retv < 0) ∧
    (∀ e, AsyncHandle.send retv = .error e →
      e = UvError.couldntTriggerAsyncHandle) := by
  unfold AsyncHandle.send
  by_cases h : retv < 0
  · rw [if_pos h]
    refine ⟨?_, ?_, ?_⟩
    · constructor
      · intro he
        cases he
      · intro hge
        omega
    · simp [h]
    · intro e he
      cases he
      rfl
  · rw [if_neg h]
    refine ⟨?_, ?_, ?_⟩
    · simp
      omega
    · constructor
      · intro he
        cases he
      · intro hlt
        omega
    · intro e he
      cases he

/-- C6 witness: status `-1` yields the wake-trigger error, status `3`
yields success. -/
theorem send_status_witness :
    AsyncHandle.send (-1) = .error .couldntTriggerAsyncHandle ∧
    AsyncHandle.send 3 = .ok () :=
  ⟨(send_status (-1)).2.1.mpr (by omega), (send_status 3).1.mpr (by omega)⟩

/-- C7: the trampoline reconstructs the handle view from the raw
pointer, reads the payload slot through it, invokes the payload exactly
once when the slot is non-null and not at all when it is null, and
never propagates the payload's error. -/
theorem async_cb_trampoline (dataOf : Nat → Option (Except E Unit))
    (ptr : Nat) :
    (Handle.from_raw dataOf ptr).get_data = dataOf ptr ∧
    (async_cb dataOf ptr).1 = (if (dataOf ptr).isSome then 1 else 0) ∧
    (async_cb dataOf ptr).2 = none := by
  refine ⟨rfl, ?_, ?_⟩ <;>
  · unfold async_cb Handle.from_raw HandleView.get_data
    cases h : dataOf ptr with
    | none => simp [h]
    | some r => cases r <;> simp [h]

/-- C3: in a boundary-crossing wrapper (`get_option`, `get_var`), a
populated error-output slot yields the foreign error and the success
continuation never runs (the result is independent of the returned
object and of the conversion); an empty slot runs the continuation,
whose conversion failure flows through the same single result type. -/
theorem error_slot_precedence (obj : Object) (err : ErrorSlot)
    (from_obj : Object → Except E α) :
    (∀ m, err.msg = some m →
      Window.get_option obj err from_obj = .error (.nvim err.kind m) ∧
      Window.get_var obj err from_obj = .error (.nvim err.kind m) ∧
      (∀ (g : Object → Except E α) (obj' : Object),
        Window.get_option obj err from_obj
          = Window.get_option obj' err g ∧
        Window.get_var obj err from_obj
          = Window.get_var obj' err g)) ∧
    (err.msg = none →
      Window.get_option obj err from_obj
        = (from_obj obj).mapError ApiError.conversion ∧
      Window.get_var obj err from_obj
        = (from_obj obj).mapError ApiError.conversion) := by
  unfold Window.get_option Window.get_var into_err_or_flatten
  constructor
  · intro m hm
    rw [hm]
    exact ⟨rfl, rfl, fun g obj' => ⟨rfl, rfl⟩⟩
  · intro hm
    rw [hm]
    exact ⟨rfl, rfl⟩

/-- C3 witness: a populated slot wins over a garbage success value; an
empty slot surfaces the conversion outcome. -/
theorem error_slot_precedence_witness :
    Window.get_option (Object.boolean true) ⟨1, some "boom"⟩ usize_from_obj
      = .error (.nvim 1 "boom") ∧
    Window.get_var (Object.integer 5) ⟨0, none⟩ usize_from_obj
      = .ok 5 :=
  ⟨((error_slot_precedence (Object.boolean true) ⟨1, some "boom"⟩
      usize_from_obj).1 "boom" rfl).1,
   ((error_slot_precedence (Object.integer 5) ⟨0, none⟩
      usize_from_obj).2 rfl).2⟩

/-- C8: `schedule` registers the closure in the interpreter's registry
under a fresh reference, looks up the scheduler by the two-level global
path `vim.schedule`, invokes it with exactly one argument (the value
registered under that reference), and unregisters the reference once
invoked; the stack, globals and net registry are left unchanged. -/
theorem schedule_bridge (s : LuaState) (cid : Nat)
    (vtab : List (String × LuaValue)) (schedFn : LuaValue)
    (hvim : s.globals.lookup "vim" = some vtab)
    (hsched : vtab.lookup "schedule" = some schedFn)
    (hfresh : ∀ p ∈ s.registry, p.1 ≠ s.nextRef) :
    (Function.from_fn_once
        (lua_getfield_top (lua_getglobal s "vim") "schedule") cid).2.registry.lookup
      (Function.from_fn_once
        (lua_getfield_top (lua_getglobal s "vim") "schedule") cid).1
      = some (LuaValue.closure cid) ∧
    (schedule s cid).calls = (schedFn, [LuaValue.closure cid]) :: s.calls ∧
    (∀ v, ((Function.from_fn_once
        (lua_getfield_top (lua_getglobal s "vim") "schedule") cid).1, v)
      ∉ (schedule s cid).registry) ∧
    (schedule s cid).registry = s.registry ∧
    (schedule s cid).stack = s.stack ∧
    (schedule s cid).globals = s.globals := by
  have hreg : (Function.from_fn_once
      (lua_getfield_top (lua_getglobal s "vim") "schedule") cid).1
      = s.nextRef := by
    simp [Function.from_fn_once, lua_getfield_top, lua_getglobal, hvim, hsched]
  have hfilter : s.registry.filter (fun p => p.1 ≠ s.nextRef) = s.registry :=
    List.filter_eq_self.mpr (fun p hp => by
      simpa using hfresh p hp)
  have hsch : schedule s cid =
      { globals := s.globals,
        registry := s.registry,
        nextRef := s.nextRef + 1,
        stack := s.stack,
        calls := (schedFn, [LuaValue.closure cid]) :: s.calls } := by
    unfold schedule lua_getglobal lua_getfield_top Function.from_fn_once
      lua_rawgeti_registry lua_call_1_0 lua_pop_1 luaL_unref
    rw [hvim]
    simp only [hvim, hsched]
    simp [hfilter]
    intro a b hab
    exact hfresh (a, b) hab
  refine ⟨?_, ?_, ?_, ?_, ?_, ?_⟩
  · simp [Function.from_fn_once, lua_getfield_top, lua_getglobal, hvim, hsched]
  · rw [hsch]
  · intro v hv
    rw [hreg] at hv
    rw [hsch] at hv
    exact hfresh _ hv rfl
  · rw [hsch]
  · rw [hsch]
  · rw [hsch]

/-- C8 witness: a concrete interpreter state with `vim.schedule`
present: the scheduler is invoked with the single registered-closure
argument and the registry is restored. -/
theorem schedule_bridge_witness :
    (schedule ⟨[("vim", [("schedule", LuaValue.fn 0)])], [], 7, [], []⟩
        42).calls = [(LuaValue.fn 0, [LuaValue.closure 42])] ∧
    (schedule ⟨[("vim", [("schedule", LuaValue.fn 0)])], [], 7, [], []⟩
        42).registry = [] :=
  ⟨(schedule_bridge ⟨[("vim", [("schedule", LuaValue.fn 0)])], [], 7, [], []⟩
      42 [("schedule", LuaValue.fn 0)] (LuaValue.fn 0) rfl rfl
      (by intro p hp; cases hp)).2.1,
   (schedule_bridge ⟨[("vim", [("schedule", LuaValue.fn 0)])], [], 7, [], []⟩
      42 [("schedule", LuaValue.fn 0)] (LuaValue.fn 0) rfl rfl
      (by intro p hp; cases hp)).2.2.2.1⟩

/-- C10 counterexample: with an empty error slot and a one-element
array whose single element does not convert to `usize`, `get_cursor`
(and `get_position`) return the conversion error instead of panicking,
refuting "for any returned array with fewer than 2 elements the
functions panic instead of returning an error". -/
theorem get_cursor_short_array_counterexample :
    NArray.len ⟨[Object.boolean true], 1⟩ < 2 ∧
    Window.get_cursor ⟨[Object.boolean true], 1⟩ ⟨0, none⟩
      = some (.error (.conversion (.wrongType "Integer" "Boolean"))) ∧
    Window.get_cursor ⟨[Object.boolean true], 1⟩ ⟨0, none⟩ ≠ none ∧
    Window.get_position ⟨[Object.boolean true], 1⟩ ⟨0, none⟩ ≠ none := by
  have h : Window.get_cursor ⟨[Object.boolean true], 1⟩ ⟨0, none⟩
      = some (.error (.conversion (.wrongType "Integer" "Boolean"))) := rfl
  refine ⟨by decide, h, ?_, ?_⟩
  · rw [h]
    exact fun hcon => Option.noConfusion hcon
  · rw [get_position_eq_get_cursor, h]
    exact fun hcon => Option.noConfusion hcon

/-- C10 (amended): with an empty error slot, `get_cursor` and
`get_position` assume the foreign call returned at least two elements:
with two or more, the unwraps never panic and the result is the pair of
the first two elements' `usize` conversions, conversion failures
surfacing as errors; with zero elements they panic; with one element
they panic when its conversion succeeds, and return that conversion
error (no panic) when it fails. -/
theorem get_cursor_position_spec (arr : NArray) (err : ErrorSlot)
    (hemp : err.msg = none) :
    (∀ o1 o2 rest, arr.items = o1 :: o2 :: rest →
      Window.get_cursor arr err = some (
        match usize_from_obj o1 with
        | .error e => .error (.conversion e)
        | .ok line =>
          match usize_from_obj o2 with
          | .error e => .error (.conversion e)
          | .ok col => .ok (line, col)) ∧
      Window.get_position arr err = Window.get_cursor arr err ∧
      Window.get_cursor arr err ≠ none) ∧
    (arr.items = [] →
      Window.get_cursor arr err = none ∧
      Window.get_position arr err = none) ∧
    (∀ o1, arr.items = [o1] →
      (∀ line, usize_from_obj o1 = .ok line →
        Window.get_cursor arr err = none ∧
        Window.get_position arr err = none) ∧
      (∀ e, usize_from_obj o1 = .error e →
        Window.get_cursor arr err = some (.error (.conversion e)) ∧
        Window.get_position arr err = some (.error (.conversion e)))) := by
  obtain ⟨items, cap⟩ := arr
  obtain ⟨kind, msg⟩ := err
  simp only [ErrorSlot.msg] at hemp
  subst hemp
  refine ⟨?_, ?_, ?_⟩
  · rintro o1 o2 rest rfl
    have hc : Window.get_cursor ⟨o1 :: o2 :: rest, cap⟩ ⟨kind, none⟩
        = some (
          match usize_from_obj o1 with
          | .error e => .error (.conversion e)
          | .ok line =>
            match usize_from_obj o2 with
            | .error e => .error (.conversion e)
            | .ok col => .ok (line, col)) := by
      have h1 : (1 : Nat) ≠ rest.length + 1 + 1 := by omega
      cases husz1 : usize_from_obj o1 with
      | error e =>
        simp [Window.get_cursor, into_err_or_flatten_p, NArray.into_iter,
          ArrayIterator.next, h1, husz1]
      | ok line =>
        cases husz2 : usize_from_obj o2 with
        | error e =>
          simp [Window.get_cursor, into_err_or_flatten_p, NArray.into_iter,
            ArrayIterator.next, h1, husz1, husz2]
        | ok col =>
          simp [Window.get_cursor, into_err_or_flatten_p, NArray.into_iter,
            ArrayIterator.next, h1, husz1, husz2]
    refine ⟨hc, get_position_eq_get_cursor _ _, ?_⟩
    rw [hc]
    cases usize_from_obj o1 with
    | error e => exact fun hcon => Option.noConfusion hcon
    | ok line =>
      cases usize_from_obj o2 with
      | error e => exact fun hcon => Option.noConfusion hcon
      | ok col => exact fun hcon => Option.noConfusion hcon
  · rintro rfl
    exact ⟨rfl, rfl⟩
  · rintro o1 rfl
    constructor
    · intro line husz
      have hc : Window.get_cursor ⟨[o1], cap⟩ ⟨kind, none⟩ = none := by
        simp [Window.get_cursor, into_err_or_flatten_p, NArray.into_iter,
          ArrayIterator.next, husz]
      exact ⟨hc, by rw [get_position_eq_get_cursor]; exact hc⟩
    · intro e husz
      have hc : Window.get_cursor ⟨[o1], cap⟩ ⟨kind, none⟩
          = some (.error (.conversion e)) := by
        simp [Window.get_cursor, into_err_or_flatten_p, NArray.into_iter,
          ArrayIterator.next, husz]
      exact ⟨hc, by rw [get_position_eq_get_cursor]; exact hc⟩

/-- C10 witness: a two-integer array with an empty slot gives the
converted pair with no panic. -/
theorem get_cursor_position_spec_witness :
    Window.get_cursor ⟨[Object.integer 3, Object.integer 5], 2⟩ ⟨0, none⟩
      = some (.ok (3, 5)) ∧
    Window.get_position ⟨[Object.integer 3, Object.integer 5], 2⟩ ⟨0, none⟩
      = Window.get_cursor ⟨[Object.integer 3, Object.integer 5], 2⟩ ⟨0, none⟩ := by
  have h := (get_cursor_position_spec
    ⟨[Object.integer 3, Object.integer 5], 2⟩ ⟨0, none⟩ rfl).1
    (Object.integer 3) (Object.integer 5) [] rfl
  exact ⟨h.1, h.2.1⟩

end NvimOxi
